import Mathlib

/-!
Shallow embedding of the test harness of `Automatic_solver`
(`src/test-harness.js`): the data model (test cases, suites, outcomes,
reports), the sandboxed execution of a single test case, the orchestration
of a run, the comparison policy, and the diff generator.  Process spawning
is abstracted by a `SpawnBehavior` value describing what the child process
would do (fail to start, or exit with a code, stdout, stderr and a wall
clock duration); everything downstream of that value is translated
directly from the source.
-/

namespace AutomaticSolver

/-- The whitespace class used by JavaScript `String.prototype.trim`
(WhiteSpace and LineTerminator code points). -/
def isJsWhitespace (c : Char) : Bool :=
  c == ' ' || c == '\t' || c == '\n' || c == '\r' ||
  c == '\x0b' || c == '\x0c' || c == '\u00A0' || c == '\u1680' ||
  ('\u2000' ≤ c && c ≤ '\u200A') || c == '\u2028' || c == '\u2029' ||
  c == '\u202F' || c == '\u205F' || c == '\u3000' || c == '\uFEFF'

/-- JavaScript `s.trim()`: drop leading and trailing whitespace of the
whole string. -/
def jsTrim (s : String) : String :=
  String.mk (((s.data.dropWhile isJsWhitespace).reverse.dropWhile
    isJsWhitespace).reverse)

/-- JavaScript `s.split('\n')`.  On the empty string it returns `[""]`,
and a trailing newline produces a trailing empty field, as in JS. -/
def splitNlChars : List Char → List String
  | [] => [""]
  | c :: rest =>
    if c = '\n' then "" :: splitNlChars rest
    else
      match splitNlChars rest with
      | [] => [String.mk [c]]
      | s :: tail => String.mk (c :: s.data) :: tail

/-- `String`-level wrapper for `splitNlChars`. -/
def jsSplitNl (s : String) : List String := splitNlChars s.data

/-- JavaScript `array.join('\n')`. -/
def joinNl : List String → String
  | [] => ""
  | [s] => s
  | s :: rest => s ++ "\n" ++ joinNl rest

/-- One test case: `{input, expected}` (`test-cases.json` entries). -/
structure TestCase where
  input : String
  expected : String
deriving DecidableEq

/-- A problem's suite: the fixed sample case plus the ordered custom
cases. -/
structure TestSuite where
  sample : TestCase
  custom : List TestCase
deriving DecidableEq

/-- Abstract behavior of the child process a test would spawn: either the
process cannot be started (`child.on('error')` fires), or it runs to
completion with an exit code, collected stdout, collected stderr and a
wall-clock duration in milliseconds. -/
inductive SpawnBehavior where
  | spawnError (msg : String)
  | exited (code : Int) (stdout : String) (stderr : String) (durationMs : Nat)
deriving DecidableEq

/-- `getSolutionFile` of `TestHarness`: chooses the source-file extension
for the language, defaulting to `js` for unknown languages. -/
def getSolutionFile (problemDir language : String) : String :=
  let ext :=
    if language = "javascript" then "js"
    else if language = "python" then "py"
    else if language = "java" then "java"
    else if language = "cpp" then "cpp"
    else "js"
  problemDir ++ "/solution." ++ ext

/-- `executeCode` of `TestHarness`: rejects an unknown language before
spawning; a spawn failure rejects with the OS error text; a nonzero exit
code rejects with the collected stderr (discarding stdout); a zero exit
resolves with the collected stdout.  No timer is ever armed: the result
does not depend on `durationMs`. -/
def executeCode (language : String) (proc : SpawnBehavior) :
    Except String String :=
  if language = "javascript" ∨ language = "python" ∨ language = "java" ∨
      language = "cpp" then
    match proc with
    | SpawnBehavior.spawnError msg =>
      Except.error ("Failed to start process: " ++ msg)
    | SpawnBehavior.exited code out err _ =>
      if code ≠ 0 then
        Except.error ("Execution failed with code " ++ toString code ++ ": "
          ++ err)
      else
        Except.ok out
  else
    Except.error ("Unsupported language: " ++ language)

/-- `compareOutput` of `TestHarness`: plain string equality (the trimming
happens at the call site in `runSingleTest`). -/
def compareOutput (actual expected : String) : Bool :=
  actual == expected

/-- One per-test result record as built by `runSingleTest`
(`executionTime`, a wall-clock timestamp, is not modelled). -/
structure TestOutcome where
  testName : String
  input : String
  expected : String
  actual : String
  passed : Bool
  error : Option String
deriving DecidableEq

/-- `runSingleTest` of `TestHarness`: execute the code; on success compare
the trimmed output with the trimmed expected text; on any rejection from
`executeCode` return a failed outcome carrying the error message, with the
collected output discarded (`actual` set to the empty string). -/
def runSingleTest (language input expected testName : String)
    (proc : SpawnBehavior) : TestOutcome :=
  match executeCode language proc with
  | Except.ok output =>
    { testName := testName
      input := input
      expected := expected
      actual := jsTrim output
      passed := compareOutput (jsTrim output) (jsTrim expected)
      error := none }
  | Except.error msg =>
    { testName := testName
      input := input
      expected := expected
      actual := ""
      passed := false
      error := some msg }

/-- The `summary` object of a run. -/
structure Summary where
  passed : Nat
  failed : Nat
  total : Nat
deriving DecidableEq

/-- The `results` object assembled by `runTests` (`timestamp` is not
modelled). -/
structure TestResults where
  problemId : String
  language : String
  tests : List TestOutcome
  summary : Summary
deriving DecidableEq

/-- One loop body of `runTests`: push the outcome and update the summary
counters (`total++`, then `passed++` or `failed++`). -/
def pushOutcome (results : TestResults) (outcome : TestOutcome) :
    TestResults :=
  { results with
    tests := results.tests ++ [outcome]
    summary :=
      { total := results.summary.total + 1
        passed := results.summary.passed + (if outcome.passed then 1 else 0)
        failed :=
          results.summary.failed + (if outcome.passed then 0 else 1) } }

/-- The `for` loop of `runTests` over the custom cases, carrying the loop
index used to name each test `custom-<index>`.  The process behavior for
each test is looked up in `env` by test name. -/
def runCustoms (language : String) (env : String → SpawnBehavior) :
    Nat → List TestCase → TestResults → TestResults
  | _, [], acc => acc
  | i, tc :: rest, acc =>
    runCustoms language env (i + 1) rest
      (pushOutcome acc
        (runSingleTest language tc.input tc.expected
          ("custom-" ++ toString i) (env ("custom-" ++ toString i))))

/-- `runTests` of `TestHarness`, for a suite that has been loaded from
`test-cases.json`: run the sample case first when `sample.input` is a
non-empty (truthy) string, then every custom case in stored order. -/
def runTests (problemId language : String) (suite : TestSuite)
    (env : String → SpawnBehavior) : TestResults :=
  let init : TestResults :=
    { problemId := problemId
      language := language
      tests := []
      summary := { passed := 0, failed := 0, total := 0 } }
  let afterSample : TestResults :=
    if suite.sample.input ≠ "" then
      pushOutcome init
        (runSingleTest language suite.sample.input suite.sample.expected
          "sample" (env "sample"))
    else init
  runCustoms language env 0 suite.custom afterSample

/-- `addTestCase` of `TestHarness`, for a suite that has been loaded from
`test-cases.json`: unconditionally append `{input, expected}` to `custom`
(the source performs no validation of either field). -/
def addTestCase (suite : TestSuite) (input expected : String) : TestSuite :=
  { suite with
    custom := suite.custom ++ [{ input := input, expected := expected }] }

/-- `generateDiff` of `TestHarness`: split both strings on newline, then
for each index up to the longer length emit `"  <line>"` when the two
lines (missing or empty lines read as `''` via `|| ''`) agree, else
`"- <expected>"` then `"+ <actual>"`, joined by newlines. -/
def generateDiff (expected actual : String) : String :=
  let expectedLines := jsSplitNl expected
  let actualLines := jsSplitNl actual
  let maxLines := max expectedLines.length actualLines.length
  joinNl ((List.range maxLines).foldl
    (fun acc i =>
      if expectedLines.getD i "" == actualLines.getD i "" then
        acc ++ ["  " ++ expectedLines.getD i ""]
      else
        acc ++ ["- " ++ expectedLines.getD i "",
          "+ " ++ actualLines.getD i ""]) [])

/-- One entry of the `details` array of `generateDiffReport`. -/
structure TestDetail where
  testName : String
  passed : Bool
  input : String
  expected : String
  actual : String
  diff : Option String
  error : Option String
deriving DecidableEq

/-- The report assembled by `generateDiffReport`. -/
structure DiffReport where
  problemId : String
  summary : Summary
  details : List TestDetail
deriving DecidableEq

/-- JavaScript truthiness of an optional string field: present and
non-empty. -/
def truthyStr : Option String → Bool
  | some s => s != ""
  | none => false

/-- The per-test body of `generateDiffReport`: copy the outcome fields,
attach `diff` exactly when `passed` is false (`if (!test.passed)`), and
copy `error` when it is truthy (`if (test.error)`). -/
def toDetail (test : TestOutcome) : TestDetail :=
  { testName := test.testName
    passed := test.passed
    input := test.input
    expected := test.expected
    actual := test.actual
    diff :=
      if test.passed then none
      else some (generateDiff test.expected test.actual)
    error := if truthyStr test.error then test.error else none }

/-- `generateDiffReport` of `TestHarness`. -/
def generateDiffReport (testResults : TestResults) : DiffReport :=
  { problemId := testResults.problemId
    summary := testResults.summary
    details := testResults.tests.map toDetail }

/-- The outcomes produced by the custom-case loop of `runTests`, as a
pure list (the loop in the source also threads the summary counters,
handled separately by `pushOutcome`). -/
def customOutcomes (language : String) (env : String → SpawnBehavior) :
    Nat → List TestCase → List TestOutcome
  | _, [] => []
  | i, tc :: rest =>
    runSingleTest language tc.input tc.expected
        ("custom-" ++ toString i) (env ("custom-" ++ toString i)) ::
      customOutcomes language env (i + 1) rest

/-- The list of test names a run over `suite` must produce: `sample`
first when `sample.input` is non-empty, then `custom-0 ..
custom-(k-1)`. -/
def expectedTestNames (suite : TestSuite) : List String :=
  (if suite.sample.input ≠ "" then ["sample"] else []) ++
    (List.range suite.custom.length).map (fun i => "custom-" ++ toString i)

/-- Concrete one-custom-case suite with an empty sample, used to exercise
the run lemmas on explicit inputs. -/
def wSuite : TestSuite :=
  { sample := { input := "", expected := "" },
    custom := [{ input := "1", expected := "1" }] }

/-- Concrete environment: every process prints `1` and exits 0. -/
def wEnvOk : String → SpawnBehavior :=
  fun _ => SpawnBehavior.exited 0 "1" "" 5

/-- Concrete suite whose sample case is present. -/
def wSuite2 : TestSuite :=
  { sample := { input := "x", expected := "1" },
    custom := [{ input := "1", expected := "1" }] }

/-- Concrete environment whose sample process fails to start while every
other process prints `1` and exits 0. -/
def wEnvSampleFail : String → SpawnBehavior :=
  fun n =>
    if n = "sample" then SpawnBehavior.spawnError "boom"
    else SpawnBehavior.exited 0 "1" "" 0

/-- The report detail produced for a one-case suite whose process fails
to start, used to exercise the report lemmas on an explicit detail. -/
def spawnFailDetail : TestDetail :=
  { testName := "sample", passed := false, input := "1", expected := "1",
    actual := "", diff := some "- 1\n+ ",
    error := some "Failed to start process: spawn ENOENT" }

/-- Diff algorithm as the spec words it (refinement reference): split both
strings on newline, pad the shorter sequence with empty strings up to the
longer length, then per index emit the context line or the `-`/`+`
pair. -/
def specDiff (expected actual : String) : String :=
  let el := jsSplitNl expected
  let al := jsSplitNl actual
  let n := max el.length al.length
  let ep := el ++ List.replicate (n - el.length) ""
  let ap := al ++ List.replicate (n - al.length) ""
  joinNl (((ep.zip ap).map (fun p =>
    if p.1 == p.2 then ["  " ++ p.1]
    else ["- " ++ p.1, "+ " ++ p.2])).flatten)

/-! Basic facts about single-test execution. -/

theorem runSingleTest_testName (language input expected testName : String)
    (proc : SpawnBehavior) :
    (runSingleTest language input expected testName proc).testName
      = testName := by
  unfold runSingleTest
  cases executeCode language proc <;> rfl

theorem runSingleTest_expected (language input expected testName : String)
    (proc : SpawnBehavior) :
    (runSingleTest language input expected testName proc).expected
      = expected := by
  unfold runSingleTest
  cases executeCode language proc <;> rfl

theorem runSingleTest_error_failed (language input expected testName : String)
    (proc : SpawnBehavior)
    (h : (runSingleTest language input expected testName proc).error ≠ none) :
    (runSingleTest language input expected testName proc).passed = false := by
  unfold runSingleTest at *
  cases hE : executeCode language proc <;> simp_all

/-! Structure of the custom-case loop. -/

theorem runCustoms_tests (language : String) (env : String → SpawnBehavior)
    (cs : List TestCase) :
    ∀ (i : Nat) (acc : TestResults),
      (runCustoms language env i cs acc).tests
        = acc.tests ++ customOutcomes language env i cs := by
  induction cs with
  | nil => intro i acc; simp [runCustoms, customOutcomes]
  | cons tc rest ih =>
    intro i acc
    simp [runCustoms, customOutcomes, ih, pushOutcome]

theorem customOutcomes_names (language : String)
    (env : String → SpawnBehavior) (cs : List TestCase) :
    ∀ i : Nat,
      (customOutcomes language env i cs).map (fun o => o.testName)
        = (List.range cs.length).map
            (fun k => "custom-" ++ toString (i + k)) := by
  induction cs with
  | nil => intro i; simp [customOutcomes]
  | cons tc rest ih =>
    intro i
    simp only [customOutcomes, List.map_cons, List.length_cons,
      List.range_succ_eq_map, List.map_map, runSingleTest_testName,
      ih (i + 1)]
    refine List.cons_eq_cons.mpr ⟨rfl, ?_⟩
    · apply List.map_congr_left
      intro k _
      have hik : i + 1 + k = i + (k + 1) := by omega
      simp [Function.comp, hik, Nat.succ_eq_add_one]

theorem customOutcomes_error_failed (language : String)
    (env : String → SpawnBehavior) (cs : List TestCase) :
    ∀ (i : Nat) (o : TestOutcome), o ∈ customOutcomes language env i cs →
      o.error ≠ none → o.passed = false := by
  induction cs with
  | nil => intro i o ho; simp [customOutcomes] at ho
  | cons tc rest ih =>
    intro i o ho he
    rcases List.mem_cons.mp ho with rfl | hmem
    · exact runSingleTest_error_failed _ _ _ _ _ he
    · exact ih (i + 1) o hmem he

/-! Structure of a full run. -/

theorem runTests_tests (problemId language : String) (suite : TestSuite)
    (env : String → SpawnBehavior) :
    (runTests problemId language suite env).tests
      = (if suite.sample.input ≠ "" then
          [runSingleTest language suite.sample.input suite.sample.expected
            "sample" (env "sample")]
        else []) ++ customOutcomes language env 0 suite.custom := by
  by_cases h : suite.sample.input = "" <;>
    simp [runTests, h, runCustoms_tests, pushOutcome]

theorem runTests_names (problemId language : String) (suite : TestSuite)
    (env : String → SpawnBehavior) :
    (runTests problemId language suite env).tests.map (fun o => o.testName)
      = expectedTestNames suite := by
  rw [runTests_tests]
  by_cases h : suite.sample.input = "" <;>
    simp [h, expectedTestNames, customOutcomes_names,
      runSingleTest_testName]

theorem runTests_error_failed (problemId language : String)
    (suite : TestSuite) (env : String → SpawnBehavior) :
    ∀ o ∈ (runTests problemId language suite env).tests,
      o.error ≠ none → o.passed = false := by
  intro o ho he
  rw [runTests_tests] at ho
  rcases List.mem_append.mp ho with hs | hc
  · by_cases h : suite.sample.input = ""
    · simp [h] at hs
    · simp [h] at hs
      subst hs
      exact runSingleTest_error_failed _ _ _ _ _ he
  · exact customOutcomes_error_failed _ _ _ _ _ hc he

/-! Summary counters. -/

theorem length_filter_split {α : Type} (p : α → Bool) (l : List α) :
    (l.filter p).length + (l.filter (fun a => !(p a))).length
      = l.length := by
  induction l with
  | nil => simp
  | cons a rest ih =>
    by_cases hp : p a <;> simp [List.filter_cons, hp] <;> omega

theorem pushOutcome_inv (acc : TestResults) (o : TestOutcome)
    (h1 : acc.summary.total = acc.tests.length)
    (h2 : acc.summary.passed
      = (acc.tests.filter (fun t => t.passed)).length)
    (h3 : acc.summary.failed
      = (acc.tests.filter (fun t => !t.passed)).length) :
    (pushOutcome acc o).summary.total = (pushOutcome acc o).tests.length
      ∧ (pushOutcome acc o).summary.passed
        = ((pushOutcome acc o).tests.filter (fun t => t.passed)).length
      ∧ (pushOutcome acc o).summary.failed
        = ((pushOutcome acc o).tests.filter (fun t => !t.passed)).length := by
  by_cases hp : o.passed <;>
    simp [pushOutcome, h1, h2, h3, List.filter_append, List.filter_cons, hp]

theorem runCustoms_inv (language : String) (env : String → SpawnBehavior)
    (cs : List TestCase) :
    ∀ (i : Nat) (acc : TestResults),
      acc.summary.total = acc.tests.length →
      acc.summary.passed = (acc.tests.filter (fun t => t.passed)).length →
      acc.summary.failed = (acc.tests.filter (fun t => !t.passed)).length →
      (runCustoms language env i cs acc).summary.total
          = (runCustoms language env i cs acc).tests.length
        ∧ (runCustoms language env i cs acc).summary.passed
          = ((runCustoms language env i cs acc).tests.filter
              (fun t => t.passed)).length
        ∧ (runCustoms language env i cs acc).summary.failed
          = ((runCustoms language env i cs acc).tests.filter
              (fun t => !t.passed)).length := by
  induction cs with
  | nil => intro i acc h1 h2 h3; exact ⟨h1, h2, h3⟩
  | cons tc rest ih =>
    intro i acc h1 h2 h3
    obtain ⟨g1, g2, g3⟩ := pushOutcome_inv acc
      (runSingleTest language tc.input tc.expected
        ("custom-" ++ toString i) (env ("custom-" ++ toString i)))
      h1 h2 h3
    exact ih (i + 1) _ g1 g2 g3

theorem runTests_summary (problemId language : String) (suite : TestSuite)
    (env : String → SpawnBehavior) :
    (runTests problemId language suite env).summary.total
        = (runTests problemId language suite env).tests.length
      ∧ (runTests problemId language suite env).summary.passed
        = ((runTests problemId language suite env).tests.filter
            (fun o => o.passed)).length
      ∧ (runTests problemId language suite env).summary.failed
        = ((runTests problemId language suite env).tests.filter
            (fun o => !o.passed)).length := by
  unfold runTests
  by_cases h : suite.sample.input = ""
  · refine runCustoms_inv language env suite.custom 0 _ ?_ ?_ ?_ <;>
      rw [if_neg (fun hn => hn h)] <;> rfl
  · obtain ⟨g1, g2, g3⟩ := pushOutcome_inv
      { problemId := problemId, language := language, tests := [],
        summary := { passed := 0, failed := 0, total := 0 } }
      (runSingleTest language suite.sample.input suite.sample.expected
        "sample" (env "sample")) rfl rfl rfl
    refine runCustoms_inv language env suite.custom 0 _ ?_ ?_ ?_
    · rw [if_pos h]; exact g1
    · rw [if_pos h]; exact g2
    · rw [if_pos h]; exact g3

/-! Diff generation. -/

theorem foldl_if_append {α β : Type} (p : β → Bool) (g h : β → List α) :
    ∀ (l : List β) (acc : List α),
      l.foldl (fun acc i => if p i then acc ++ g i else acc ++ h i) acc
        = acc ++ (l.map (fun i => if p i then g i else h i)).flatten := by
  intro l
  induction l with
  | nil => intro acc; simp
  | cons b rest ih =>
    intro acc
    simp only [List.foldl_cons, List.map_cons, List.flatten_cons, ih]
    by_cases hp : p b <;> simp [hp, List.append_assoc]

theorem getD_replicate_self {α : Type} (d : α) :
    ∀ (k i : Nat), (List.replicate k d).getD i d = d := by
  intro k
  induction k with
  | zero => intro i; simp [List.getD_nil]
  | succ n ih =>
    intro i
    cases i <;> simp [List.replicate, List.getD_cons_zero,
      List.getD_cons_succ, ih]

theorem pad_getD {α : Type} (d : α) (k : Nat) (l : List α) :
    ∀ i : Nat, (l ++ List.replicate k d).getD i d = l.getD i d := by
  induction l with
  | nil => intro i; simp [getD_replicate_self]
  | cons a rest ih =>
    intro i
    cases i with
    | zero => rfl
    | succ n =>
      simp only [List.cons_append, List.getD_cons_succ]
      exact ih n

theorem range_pad_zip {α : Type} (d : α) (el al : List α) :
    (List.range (max el.length al.length)).map
        (fun i => (el.getD i d, al.getD i d))
      = (el ++ List.replicate (max el.length al.length - el.length) d).zip
          (al ++ List.replicate (max el.length al.length - al.length) d) := by
  have hel :
      (el ++ List.replicate (max el.length al.length - el.length) d).length
        = max el.length al.length := by
    rw [List.length_append, List.length_replicate]; omega
  have hal :
      (al ++ List.replicate (max el.length al.length - al.length) d).length
        = max el.length al.length := by
    rw [List.length_append, List.length_replicate]; omega
  apply List.ext_getElem
  · simp [hel, hal]
  · intro i h1 h2
    have hi : i < max el.length al.length := by
      simpa using h1
    have hie : i <
        (el ++ List.replicate (max el.length al.length - el.length)
          d).length := by
      rw [hel]; exact hi
    have hia : i <
        (al ++ List.replicate (max el.length al.length - al.length)
          d).length := by
      rw [hal]; exact hi
    rw [List.getElem_map, List.getElem_range, List.getElem_zip]
    rw [← List.getD_eq_getElem _ d hie, ← List.getD_eq_getElem _ d hia]
    rw [pad_getD, pad_getD]

/-! Claim theorems. -/

/-- C1: the harness never enforces a timeout.  The claim says a test whose
process runs longer than the fixed timeout is forcibly terminated and
scored failed with a timeout error string.  The code arms no timer:
`executeCode` is independent of the process duration, and at the concrete
failing input — a JavaScript run taking 999999999 ms that prints the
expected output and exits 0 — the outcome is scored `passed = true` with
no error, contradicting the claim. -/
theorem timeout_never_enforced :
    ((runSingleTest "javascript" "2 7 11 15\n9" "0 1" "sample"
        (SpawnBehavior.exited 0 "0 1\n" "" 999999999)).passed = true
      ∧ (runSingleTest "javascript" "2 7 11 15\n9" "0 1" "sample"
          (SpawnBehavior.exited 0 "0 1\n" "" 999999999)).error = none)
    ∧ ∀ (language out errText : String) (code : Int) (d1 d2 : Nat),
        executeCode language (SpawnBehavior.exited code out errText d1)
          = executeCode language (SpawnBehavior.exited code out errText d2) :=
  ⟨by decide, fun _ _ _ _ _ _ => rfl⟩

/-- C4 counterexample: `addTestCase` with both fields empty does not fail
and does not leave the suite unchanged — it appends the empty case. -/
theorem addTestCase_empty_appends :
    addTestCase
        { sample := { input := "s", expected := "t" }, custom := [] } "" ""
      = { sample := { input := "s", expected := "t" },
          custom := [{ input := "", expected := "" }] } := by
  decide

/-- C4 amended: `addTestCase` performs no emptiness validation: for every
suite and every `input`/`expected` — the empty string included — it
appends `{input, expected}` to `custom` and leaves `sample` untouched. -/
theorem addTestCase_appends_unvalidated (suite : TestSuite)
    (input expected : String) :
    addTestCase suite input expected
      = { sample := suite.sample,
          custom :=
            suite.custom ++ [{ input := input, expected := expected }] } :=
  rfl

/-- C3 counterexample: a run in the unsupported language `ruby` does not
abort with a typed failure — it returns a report containing a per-test
outcome (named, failed, carrying the `Unsupported language` message). -/
theorem unsupportedLanguage_still_reports :
    (runTests "two-sum" "ruby"
        { sample := { input := "", expected := "" },
          custom := [{ input := "1", expected := "1" }] }
        (fun _ => SpawnBehavior.exited 0 "1" "" 5)).tests.map
      (fun o => (o.testName, o.passed, o.error))
      = [("custom-0", false, some "Unsupported language: ruby")] := by
  decide

/-- C2 counterexample: in a report produced by `generateDiffReport`, an
outcome with `error` set (here a spawn failure) still carries a `diff`,
contradicting the claim that an error-bearing outcome never has one. -/
theorem diff_present_with_error :
    (generateDiffReport (runTests "two-sum" "javascript"
        { sample := { input := "1", expected := "1" }, custom := [] }
        (fun _ => SpawnBehavior.spawnError "spawn ENOENT"))).details.map
      (fun d => (d.passed, d.diff, d.error))
      = [(false, some "- 1\n+ ",
          some "Failed to start process: spawn ENOENT")] := by
  decide

/-- C8: `generateDiff` computes exactly the spec's index-aligned diff:
split both strings on newline, pad the shorter line sequence with empty
strings to the longer length, and per index emit `"  <line>"` when the
lines agree, else `"- <expected>"` then `"+ <actual>"`, joined by
newlines. -/
theorem generateDiff_matches_spec (expected actual : String) :
    generateDiff expected actual = specDiff expected actual := by
  simp only [generateDiff, specDiff]
  rw [foldl_if_append]
  rw [← range_pad_zip, List.map_map]
  rfl

/-! Unsupported-language behavior. -/

theorem executeCode_unsupported (language : String) (proc : SpawnBehavior)
    (h1 : language ≠ "javascript") (h2 : language ≠ "python")
    (h3 : language ≠ "java") (h4 : language ≠ "cpp") :
    executeCode language proc
      = Except.error ("Unsupported language: " ++ language) := by
  unfold executeCode
  rw [if_neg]
  rintro (h | h | h | h)
  · exact h1 h
  · exact h2 h
  · exact h3 h
  · exact h4 h

theorem runSingleTest_unsupported (language input expected testName : String)
    (proc : SpawnBehavior)
    (h1 : language ≠ "javascript") (h2 : language ≠ "python")
    (h3 : language ≠ "java") (h4 : language ≠ "cpp") :
    runSingleTest language input expected testName proc
      = { testName := testName, input := input, expected := expected,
          actual := "", passed := false,
          error := some ("Unsupported language: " ++ language) } := by
  unfold runSingleTest
  rw [executeCode_unsupported language proc h1 h2 h3 h4]

theorem customOutcomes_unsupported (language : String)
    (env : String → SpawnBehavior)
    (h1 : language ≠ "javascript") (h2 : language ≠ "python")
    (h3 : language ≠ "java") (h4 : language ≠ "cpp") :
    ∀ (cs : List TestCase) (i : Nat),
      (customOutcomes language env i cs).map (fun o => (o.passed, o.error))
        = List.replicate cs.length
            (false, some ("Unsupported language: " ++ language)) := by
  intro cs
  induction cs with
  | nil => intro i; rfl
  | cons tc rest ih =>
    intro i
    simp [customOutcomes,
      runSingleTest_unsupported language _ _ _ _ h1 h2 h3 h4, ih (i + 1),
      List.replicate_succ]

/-! Claim theorems, continued. -/

/-- C3 amended: a run in an unrecognized language does not abort and does
not surface a typed failure: `getSolutionFile` falls back to the `.js`
solution file, the run still produces one outcome per scheduled case, and
every outcome is failed with the error string `Unsupported language:
<language>`. -/
theorem unsupported_language_outcomes (problemId language : String)
    (suite : TestSuite) (env : String → SpawnBehavior)
    (h1 : language ≠ "javascript") (h2 : language ≠ "python")
    (h3 : language ≠ "java") (h4 : language ≠ "cpp") :
    getSolutionFile problemId language = problemId ++ "/solution.js"
    ∧ (runTests problemId language suite env).tests.map
        (fun o => o.testName) = expectedTestNames suite
    ∧ (runTests problemId language suite env).tests.map
        (fun o => (o.passed, o.error))
        = List.replicate (expectedTestNames suite).length
            (false, some ("Unsupported language: " ++ language)) := by
  refine ⟨?_, runTests_names problemId language suite env, ?_⟩
  · simp only [getSolutionFile, h1, h2, h3, h4, if_false, if_neg]
    rw [String.append_assoc]
    congr 1
  · rw [runTests_tests]
    by_cases hs : suite.sample.input = "" <;>
      simp [hs, expectedTestNames, List.map_append, List.replicate_succ,
        runSingleTest_unsupported language _ _ _ _ h1 h2 h3 h4,
        customOutcomes_unsupported language env h1 h2 h3 h4 suite.custom 0]

/-- C3 witness: the amended statement at the concrete language `ruby` on a
one-case suite. -/
theorem unsupported_language_outcomes_witness :
    getSolutionFile "two-sum" "ruby" = "two-sum" ++ "/solution.js"
    ∧ (runTests "two-sum" "ruby" wSuite wEnvOk).tests.map
        (fun o => o.testName) = expectedTestNames wSuite
    ∧ (runTests "two-sum" "ruby" wSuite wEnvOk).tests.map
        (fun o => (o.passed, o.error))
        = List.replicate (expectedTestNames wSuite).length
            (false, some ("Unsupported language: " ++ "ruby")) :=
  unsupported_language_outcomes "two-sum" "ruby" wSuite wEnvOk
    (by decide) (by decide) (by decide) (by decide)

/-- C5: for every report produced by a run, `summary.total` equals
`summary.passed + summary.failed`, equals the length of `details`, and
the two counters are exactly the numbers of passing and failing
entries. -/
theorem report_summary_consistent (problemId language : String)
    (suite : TestSuite) (env : String → SpawnBehavior) :
    (generateDiffReport
        (runTests problemId language suite env)).summary.total
      = (generateDiffReport
          (runTests problemId language suite env)).summary.passed
        + (generateDiffReport
            (runTests problemId language suite env)).summary.failed
    ∧ (generateDiffReport
        (runTests problemId language suite env)).summary.total
      = (generateDiffReport
          (runTests problemId language suite env)).details.length
    ∧ (generateDiffReport
        (runTests problemId language suite env)).summary.passed
      = ((generateDiffReport
          (runTests problemId language suite env)).details.filter
            (fun d => d.passed)).length
    ∧ (generateDiffReport
        (runTests problemId language suite env)).summary.failed
      = ((generateDiffReport
          (runTests problemId language suite env)).details.filter
            (fun d => !d.passed)).length := by
  obtain ⟨h1, h2, h3⟩ := runTests_summary problemId language suite env
  have hsum :
      (generateDiffReport (runTests problemId language suite env)).summary
        = (runTests problemId language suite env).summary := rfl
  have hdet :
      (generateDiffReport (runTests problemId language suite env)).details
        = (runTests problemId language suite env).tests.map toDetail := rfl
  refine ⟨?_, ?_, ?_, ?_⟩
  · rw [hsum, h1, h2, h3,
      ← length_filter_split (fun o => o.passed)
        (runTests problemId language suite env).tests]
  · rw [hsum, hdet, List.length_map, h1]
  · rw [hsum, hdet, List.filter_map, List.length_map]
    exact h2
  · rw [hsum, hdet, List.filter_map, List.length_map]
    exact h3

/-- C7: a run over a suite with `k` custom cases yields exactly
`k + (1 if sample.input non-empty else 0)` outcomes, named `sample` first
(when present) then `custom-0 .. custom-(k-1)` in stored order. -/
theorem runTests_outcome_naming (problemId language : String)
    (suite : TestSuite) (env : String → SpawnBehavior) :
    (runTests problemId language suite env).tests.map (fun o => o.testName)
      = (if suite.sample.input ≠ "" then ["sample"] else [])
        ++ (List.range suite.custom.length).map
            (fun i => "custom-" ++ toString i)
    ∧ (runTests problemId language suite env).tests.length
      = suite.custom.length
        + (if suite.sample.input ≠ "" then 1 else 0) := by
  have h := runTests_names problemId language suite env
  constructor
  · exact h
  · have hl := congrArg List.length h
    rw [List.length_map] at hl
    rw [hl]
    unfold expectedTestNames
    by_cases hs : suite.sample.input = "" <;> simp [hs]

/-- C9: no per-test failure aborts a run: whatever each process does —
spawn failure, nonzero exit, or wrong output — the run still produces the
full list of outcomes in order, and an outcome carrying an error is always
marked failed. -/
theorem per_test_failure_isolated (problemId language : String)
    (suite : TestSuite) (env : String → SpawnBehavior) :
    (runTests problemId language suite env).tests.map (fun o => o.testName)
      = expectedTestNames suite
    ∧ ∀ o ∈ (runTests problemId language suite env).tests,
        o.error ≠ none → o.passed = false :=
  ⟨runTests_names problemId language suite env,
    runTests_error_failed problemId language suite env⟩

/-- C9 witness: with a sample whose process fails to spawn and a custom
case that succeeds, both outcomes are still present, and the erroring
outcome is marked failed. -/
theorem per_test_failure_isolated_witness :
    ({ testName := "sample", input := "x", expected := "1", actual := "",
        passed := false,
        error := some "Failed to start process: boom" } :
          TestOutcome).passed = false
    ∧ (runTests "p" "javascript" wSuite2 wEnvSampleFail).tests.map
        (fun o => o.testName) = ["sample", "custom-0"] := by
  have h := per_test_failure_isolated "p" "javascript" wSuite2
    wEnvSampleFail
  exact ⟨h.2 _ (by decide) (by decide), h.1.trans (by decide)⟩

/-- C2 amended: in every report produced by `generateDiffReport` on a
run's results, `diff` is present exactly when `passed` is false —
regardless of `error`; an outcome with `error` set has `passed = false`
and therefore also carries a `diff`. -/
theorem diff_iff_failed (problemId language : String) (suite : TestSuite)
    (env : String → SpawnBehavior) :
    ∀ d ∈ (generateDiffReport
        (runTests problemId language suite env)).details,
      (d.diff.isSome ↔ d.passed = false)
        ∧ (d.error ≠ none → d.passed = false) := by
  intro d hd
  have hdet :
      (generateDiffReport (runTests problemId language suite env)).details
        = (runTests problemId language suite env).tests.map toDetail := rfl
  rw [hdet] at hd
  obtain ⟨o, ho, rfl⟩ := List.mem_map.mp hd
  constructor
  · by_cases hp : o.passed <;> simp [toDetail, hp]
  · intro he
    have herr : o.error ≠ none := by
      intro hn
      apply he
      simp [toDetail, hn, truthyStr]
    have hfail := runTests_error_failed problemId language suite env o ho
      herr
    simpa [toDetail] using hfail

/-- C2 witness: the amended statement at the concrete erroring detail of a
spawn-failure run. -/
theorem diff_iff_failed_witness :
    (spawnFailDetail.diff.isSome ↔ spawnFailDetail.passed = false)
    ∧ spawnFailDetail.passed = false := by
  have h := diff_iff_failed "two-sum" "javascript"
    { sample := { input := "1", expected := "1" }, custom := [] }
    (fun _ => SpawnBehavior.spawnError "spawn ENOENT") spawnFailDetail
    (by decide)
  exact ⟨h.1, h.2 (by decide)⟩

/-- C10: whenever execution of a test case fails (spawn failure, nonzero
exit, or unsupported language), the outcome's `actual` is the empty
string, the outcome is failed, and the diff later attached by
`generateDiffReport` is computed against the empty string. -/
theorem error_outcome_blank_actual (language input expected testName :
    String) (proc : SpawnBehavior) (msg : String)
    (h : (runSingleTest language input expected testName proc).error
      = some msg) :
    (runSingleTest language input expected testName proc).actual = ""
    ∧ (runSingleTest language input expected testName proc).passed = false
    ∧ (toDetail (runSingleTest language input expected testName
        proc)).diff = some (generateDiff expected "") := by
  unfold runSingleTest at *
  cases hE : executeCode language proc with
  | ok output =>
    rw [hE] at h
    exact Option.noConfusion h
  | error m => exact ⟨rfl, rfl, rfl⟩

/-- C10 witness: the statement at a concrete spawn failure. -/
theorem error_outcome_blank_actual_witness :
    (runSingleTest "javascript" "1" "2" "t"
        (SpawnBehavior.spawnError "boom")).actual = ""
    ∧ (runSingleTest "javascript" "1" "2" "t"
        (SpawnBehavior.spawnError "boom")).passed = false
    ∧ (toDetail (runSingleTest "javascript" "1" "2" "t"
        (SpawnBehavior.spawnError "boom"))).diff
      = some (generateDiff "2" "") :=
  error_outcome_blank_actual "javascript" "1" "2" "t"
    (SpawnBehavior.spawnError "boom") "Failed to start process: boom"
    (by decide)

/-! Comparison policy. -/

theorem jsTrim_data (s : String) :
    (jsTrim s).data
      = ((s.data.dropWhile isJsWhitespace).reverse.dropWhile
          isJsWhitespace).reverse := rfl

theorem dropWhile_rev_decomp {α : Type} (p : α → Bool) (l : List α) :
    l.dropWhile p
      = ((l.dropWhile p).reverse.dropWhile p).reverse
        ++ ((l.dropWhile p).reverse.takeWhile p).reverse := by
  conv_lhs => rw [← List.reverse_reverse (l.dropWhile p),
    ← List.takeWhile_append_dropWhile (p := p)
      (l := (l.dropWhile p).reverse)]
  rw [List.reverse_append]

/-- C6: the pass decision is exact string equality after trimming only
leading and trailing whitespace of each whole string: `compareOutput` of
the trimmed strings holds exactly when the trimmed strings are equal;
trimming removes a leading and a trailing all-whitespace run (and nothing
else) from the string, and the trimmed string neither starts nor ends
with whitespace — so no per-line trimming, no case folding, no numeric
tolerance. -/
theorem compareOutput_trim_policy (actual expected : String) :
    (compareOutput (jsTrim actual) (jsTrim expected) = true
        ↔ jsTrim actual = jsTrim expected)
    ∧ (∃ p q : List Char,
        (∀ c ∈ p, isJsWhitespace c = true)
        ∧ (∀ c ∈ q, isJsWhitespace c = true)
        ∧ actual.data = p ++ (jsTrim actual).data ++ q)
    ∧ (∀ c : Char, (jsTrim actual).data.head? = some c →
        isJsWhitespace c = false)
    ∧ (∀ c : Char, (jsTrim actual).data.getLast? = some c →
        isJsWhitespace c = false) := by
  refine ⟨?_, ?_, ?_, ?_⟩
  · simp [compareOutput]
  · refine ⟨actual.data.takeWhile isJsWhitespace,
      ((actual.data.dropWhile isJsWhitespace).reverse.takeWhile
        isJsWhitespace).reverse, ?_, ?_, ?_⟩
    · intro c hc
      exact List.mem_takeWhile_imp hc
    · intro c hc
      rw [List.mem_reverse] at hc
      exact List.mem_takeWhile_imp hc
    · conv_lhs => rw [← List.takeWhile_append_dropWhile
        (p := isJsWhitespace) (l := actual.data)]
      rw [List.append_assoc]
      congr 1
      rw [jsTrim_data]
      exact dropWhile_rev_decomp isJsWhitespace actual.data
  · intro c hc
    have hl1 : (actual.data.dropWhile isJsWhitespace).head? = some c := by
      rw [dropWhile_rev_decomp isJsWhitespace actual.data,
        List.head?_append]
      rw [jsTrim_data] at hc
      rw [hc]
      rfl
    have hnot := List.head?_dropWhile_not isJsWhitespace actual.data
    rw [hl1] at hnot
    exact hnot
  · intro c hc
    rw [jsTrim_data, List.getLast?_reverse] at hc
    have hnot := List.head?_dropWhile_not isJsWhitespace
      (actual.data.dropWhile isJsWhitespace).reverse
    rw [hc] at hnot
    exact hnot

/-- C6 witness: the comparison-policy equivalence at concrete strings. -/
theorem compareOutput_trim_policy_witness :
    compareOutput (jsTrim "  0 1\n") (jsTrim "0 1") = true
      ↔ jsTrim "  0 1\n" = jsTrim "0 1" :=
  (compareOutput_trim_policy "  0 1\n" "0 1").1

end AutomaticSolver
